import Mathlib

/-!
Verification of the RaeburnBrainMonorepo router / scoring / memory-store core.

The Python sources are embedded shallowly:

* floats become rationals (the code only adds, multiplies, divides and
  compares; no NaN or rounding behavior is relied upon by the properties);
* Python truthiness tests on strings, numbers, lists and options are made
  explicit (helper functions named pyTruthy...);
* SQLite tables become lists of records in rowid order; SQL DELETE / INSERT /
  UPDATE become list operations; ORDER BY ... LIMIT becomes an insertion sort
  followed by take;
* external effects (HTTP calls, the FTS5 match oracle and its bm25 ranking,
  wall-clock time, generated uuids) are passed in as explicit arguments, so
  every definition stays executable.
-/

namespace Raeburn

/-- Python truthiness of an optional float (None and 0.0 are falsy). -/
def pyTruthyQ : Option ℚ → Bool
  | none => false
  | some x => x != 0

/-- Python truthiness of an optional int (None and 0 are falsy). -/
def pyTruthyN : Option Nat → Bool
  | none => false
  | some n => n != 0

/-- Python truthiness of an optional string (None and the empty string are falsy). -/
def pyTruthyS : Option String → Bool
  | none => false
  | some s => s != ""

/-- Python truthiness of an optional list (None and the empty list are falsy). -/
def pyTruthyL {α : Type} : Option (List α) → Bool
  | none => false
  | some l => !l.isEmpty

/-! ## Scoring (RaeburnBrainAI/scoring/hybrid_score.py) -/

/-- ScoreWeights dataclass.  The field holding the weight of the match
sub-score is called matchW here because match is a reserved word in Lean. -/
structure ScoreWeights where
  length : ℚ
  matchW : ℚ
  similarity : ℚ
  latency : ℚ
deriving DecidableEq

/-- The dataclass defaults: length 0.15, match 0.25, similarity 0.45, latency 0.15. -/
def ScoreWeights.default : ScoreWeights :=
  { length := 15/100, matchW := 25/100, similarity := 45/100, latency := 15/100 }

/-- Sum of the four weights, as computed in ScoreWeights.normalized. -/
def ScoreWeights.total (w : ScoreWeights) : ℚ :=
  w.length + w.matchW + w.similarity + w.latency

/-- ScoreWeights.normalized: divide by the total, falling back to the
defaults when the total is zero. -/
def ScoreWeights.normalized (w : ScoreWeights) : ScoreWeights :=
  if w.total = 0 then ScoreWeights.default
  else { length := w.length / w.total, matchW := w.matchW / w.total,
         similarity := w.similarity / w.total, latency := w.latency / w.total }

/-- Length of a longest common subsequence, computed with a structural fuel
argument so that the kernel can evaluate it; any fuel at least
as.length + bs.length gives the exact LCS, and the bounds proved below hold
for every fuel. -/
def lcsLenAux : Nat → List Char → List Char → Nat
  | 0, _, _ => 0
  | _ + 1, [], _ => 0
  | _ + 1, _ :: _, [] => 0
  | fuel + 1, a :: as, b :: bs =>
    if a = b then lcsLenAux fuel as bs + 1
    else max (lcsLenAux fuel (a :: as) bs) (lcsLenAux fuel as (b :: bs))

/-- LCS length of two character lists. -/
def lcsLen (as bs : List Char) : Nat := lcsLenAux (as.length + bs.length) as bs

/-- Modelled from the spec: the source calls difflib.SequenceMatcher(None, a,
b).ratio(), a library function outside the repository, which the spec
describes as the symmetric longest-common-subsequence ratio in [0,1].
We embed it as 2 * lcs / (len a + len b); the guard returning 0.0 when either
string is empty is the code of _similarity itself. -/
def seqMatchRatio (a b : String) : ℚ :=
  2 * (lcsLen a.data b.data : ℚ) / ((a.length : ℚ) + (b.length : ℚ))

/-- _similarity from hybrid_score.py: 0.0 when either argument is falsy,
otherwise the sequence-matcher ratio. -/
def pySimilarity (a b : String) : ℚ :=
  if a = "" ∨ b = "" then 0 else seqMatchRatio a b

/-- The fields of a provider response dict that hybrid_score reads. -/
structure ScoredInput where
  content : String
  latency : ℚ
  error : Option String
deriving DecidableEq

/-- length_score = min(len(content), 4000) / 4000. -/
def lengthScore (content : String) : ℚ := (min content.length 4000 : ℕ) / 4000

/-- match_score = 0.0 if error else 1.0 (Python truthiness: a None error or
an empty error string both count as no error). -/
def matchScore (error : Option String) : ℚ := if pyTruthyS error then 0 else 1

/-- latency_score = 1.0 / (1.0 + max(latency, 1.0)). -/
def latencyScore (latency : ℚ) : ℚ := 1 / (1 + max latency 1)

/-- hybrid_score(prompt, response, weights): the dot product of the four
sub-scores with the normalized weights. -/
def hybrid_score (prompt : String) (r : ScoredInput) (w : ScoreWeights) : ℚ :=
  let wn := w.normalized
  lengthScore r.content * wn.length
    + matchScore r.error * wn.matchW
    + pySimilarity prompt r.content * wn.similarity
    + latencyScore r.latency * wn.latency

/-! ## Model metadata (RaeburnBrainAI/model/registry.py) -/

/-- RouterBias dataclass. -/
structure RouterBias where
  prefer_for : List String := []
  avoid_for : List String := []
deriving DecidableEq

/-- Capabilities dataclass. -/
structure Capabilities where
  streaming : Bool := false
  json_mode : Bool := false
  roles_supported : List String := ["user"]
  multimodal : Bool := false
  max_context : Option Nat := none
deriving DecidableEq

/-- ModelMeta dataclass.  The extras dict is kept abstractly as the one entry
the router reads from it: endpoint_host models
urlparse(extras.get("endpoint")).hostname, with none covering a missing
endpoint and an endpoint without a parseable hostname. -/
structure ModelMeta where
  name : String
  provider : String
  cost_usd_per_1k : ℚ := 0
  speed_tps_estimate : ℚ := 0
  strengths : List String := []
  weaknesses : List String := []
  forbidden_tasks : List String := []
  router_bias : RouterBias := {}
  auto_disable_threshold_failures : Option Nat := none
  last_passed_health : Option String := none
  allowed_hosts : List String := []
  capabilities : Capabilities := {}
  endpoint_host : Option String := none
deriving DecidableEq

/-- Mutable per-fetcher health state (BaseFetcher attributes read by the
router; health_ok starts true and failure_count at 0). -/
structure FetcherState where
  health_ok : Bool := true
  failure_count : Nat := 0
deriving DecidableEq

/-! ## Router bias (RaeburnBrainAI/router.py, Router._bias_multiplier) -/

/-- The task-dependent part of the bias: skipped when task is falsy
(None or the empty string), otherwise the four tag multipliers in code order. -/
def taskFactor (meta : ModelMeta) (task : Option String) : ℚ :=
  match task with
  | none => 1
  | some t =>
    if t = "" then 1
    else
      (if t ∈ meta.router_bias.prefer_for then 12/10 else 1)
        * (if t ∈ meta.router_bias.avoid_for then 7/10 else 1)
        * (if t ∈ meta.strengths then 115/100 else 1)
        * (if t ∈ meta.weaknesses then 85/100 else 1)

/-- The failure_count multiplier: applied only when the count is nonzero
(Python truthiness), then max(0.2, 1 - 0.1 * failure_count). -/
def failureFactor (n : Nat) : ℚ :=
  if n ≠ 0 then max (2/10) (1 - (n : ℚ)/10) else 1

/-- Router._bias_multiplier as the product of its factors, in code order:
task tags, cost, speed (skipped when the estimate is falsy), failure count,
health flag, missing last_passed_health stamp. -/
def bias_multiplier (meta : ModelMeta) (st : FetcherState) (task : Option String) : ℚ :=
  taskFactor meta task
    * (1 / (1 + max meta.cost_usd_per_1k 0))
    * (if meta.speed_tps_estimate ≠ 0 then 1 + min meta.speed_tps_estimate 100 / 1000 else 1)
    * failureFactor st.failure_count
    * (if st.health_ok then 1 else 8/10)
    * (if meta.last_passed_health = none then 9/10 else 1)

/-- The final biased score attached to each routed response:
hybrid_score(prompt, res) * bias. -/
def finalScore (prompt : String) (r : ScoredInput) (w : ScoreWeights)
    (meta : ModelMeta) (st : FetcherState) (task : Option String) : ℚ :=
  hybrid_score prompt r w * bias_multiplier meta st task

/-- A minimal concrete descriptor used by witnesses. -/
def sampleMeta : ModelMeta := { name := "m1", provider := "local" }

/-! ## Registry selection (RaeburnBrainAI/model/registry.py, ModelRegistry.choose) -/

/-- A fetcher as the router sees it: its name (set to the descriptor name by
every fetcher constructor), its descriptor and its current mutable state. -/
structure Fetcher where
  name : String
  meta : ModelMeta
  st : FetcherState
deriving DecidableEq

/-- The synthetic local-echo fetcher built by the fallback branch of choose:
ModelMeta(name="local-echo", provider="local") handed to fetcher_for.  (When a
fetcher named local-echo is already cached the code reuses that instance; the
fallback is then that cached fetcher, which is likewise non-empty, so the
claims proved below do not depend on the cache.) -/
def localEchoFetcher : Fetcher :=
  { name := "local-echo", meta := { name := "local-echo", provider := "local" }, st := {} }

/-- The keyword arguments of ModelRegistry.choose. -/
structure ChooseArgs where
  limit : Option Nat := none
  task : Option String := none
  require_json : Bool := false
  require_streaming : Bool := false
  required_roles : Option (List String) := none
deriving DecidableEq

/-- host_allowed from ModelMeta: empty allowed_hosts, a missing endpoint or an
endpoint without a hostname always pass; otherwise the hostname must be
listed. -/
def hostAllowed (meta : ModelMeta) : Bool :=
  if meta.allowed_hosts.isEmpty then true
  else match meta.endpoint_host with
    | none => true
    | some h => meta.allowed_hosts.contains h

/-- The filter chain of choose, in code order: forbidden task (only when the
task string is truthy), auto-disable threshold, json capability, streaming
capability, required roles (only when the list is truthy), allowed hosts. -/
def passesFilters (a : ChooseArgs) (f : Fetcher) : Bool :=
  !(pyTruthyS a.task && f.meta.forbidden_tasks.contains (a.task.getD ""))
    && !(match f.meta.auto_disable_threshold_failures with
          | some thr => thr ≤ f.st.failure_count
          | none => false)
    && !(a.require_json && !f.meta.capabilities.json_mode)
    && !(a.require_streaming && !f.meta.capabilities.streaming)
    && !(pyTruthyL a.required_roles
          && !(a.required_roles.getD []).all f.meta.capabilities.roles_supported.contains)
    && hostAllowed f.meta

/-- The selection loop of choose: iterate the registry order, keep fetchers
that pass every filter, and break once the selected count reaches a truthy
limit (the break test runs after each append, so limit acts as a hard cap). -/
def chooseLoop (a : ChooseArgs) : List Fetcher → Nat → List Fetcher
  | [], _ => []
  | f :: rest, k =>
    if passesFilters a f then
      f :: (if pyTruthyN a.limit && decide (a.limit.getD 0 ≤ k + 1) then []
            else chooseLoop a rest (k + 1))
    else chooseLoop a rest k

/-- ModelRegistry.choose: run the selection loop over the registry list and
fall back to the synthetic local-echo fetcher when nothing survived. -/
def choose (registry : List Fetcher) (a : ChooseArgs) : List Fetcher :=
  let selected := chooseLoop a registry 0
  if selected.isEmpty then [localEchoFetcher] else selected

/-! ## Router.route (RaeburnBrainAI/router.py) -/

/-- RouterRequest dataclass. -/
structure RouterRequest where
  prompt : String
  session_id : String := "default"
  parallel : Bool := true
  limit_models : Option Nat := none
  task : Option String := none
  require_json : Bool := false
  require_streaming : Bool := false
  required_roles : Option (List String) := none
deriving DecidableEq

/-- RouterResponse dataclass (raw dict omitted; latency is kept as the exact
rational, the int() conversion in the source only truncates a value that the
fetchers already produced as a whole number of milliseconds). -/
structure RouterResponse where
  model : String
  content : String
  latency : ℚ
  error : Option String
  score : ℚ
deriving DecidableEq

/-- The outcome of one adapter dispatch: either the response dict produced by
generate, or an exception escaping it. -/
inductive GenOutcome where
  | ok (content : String) (latency : ℚ) (error : Option String)
  | exn (msg : String)
deriving DecidableEq

/-- The response-dict fields route reads, for one dispatched fetcher.  A
generate result carries the fetcher meta (BaseFetcher._response puts it
there); an exception is synthesized into model/content ""/latency 0/error. -/
structure GenDict where
  model : String
  content : String
  latency : ℚ
  error : Option String
  meta : Option ModelMeta
deriving DecidableEq

/-- One entry of the responses list built by the dispatch loop. -/
def dispatchOne (f : Fetcher) : GenOutcome → GenDict
  | .ok c lat err => { model := f.name, content := c, latency := lat, error := err, meta := some f.meta }
  | .exn msg => { model := f.name, content := "", latency := 0, error := some msg, meta := some f.meta }

/-- The dispatch phase.  With deterministic generate outcomes the parallel
branch (asyncio.gather, which returns results in task order) and the
sequential branch (a for loop) build the same responses list, one dict per
chosen fetcher in choose order. -/
def dispatchAll (parallel : Bool) (fetchers : List Fetcher) (gen : Fetcher → GenOutcome) :
    List GenDict :=
  match parallel with
  | true => fetchers.map fun f => dispatchOne f (gen f)
  | false => fetchers.map fun f => dispatchOne f (gen f)

/-- The scoring step of route for one response dict: recover the meta
(res.get("meta") or a local default), look the fetcher up by meta name
(falling back to the getattr defaults health_ok=True/failure_count=0 when the
lookup misses), and attach hybrid_score times the bias multiplier. -/
def mkRouted (prompt : String) (w : ScoreWeights) (task : Option String)
    (fetchers : List Fetcher) (d : GenDict) : RouterResponse :=
  let meta := match d.meta with
    | some m => m
    | none => { name := d.model, provider := "local" }
  let st := match fetchers.find? (fun f => f.name = meta.name) with
    | some f => f.st
    | none => ({} : FetcherState)
  { model := d.model, content := d.content, latency := d.latency, error := d.error,
    score := finalScore prompt ⟨d.content, d.latency, d.error⟩ w meta st task }

/-- The unsorted routed list, in dispatch (= choose) order. -/
def routedList (prompt : String) (w : ScoreWeights) (task : Option String)
    (parallel : Bool) (fetchers : List Fetcher) (gen : Fetcher → GenOutcome) :
    List RouterResponse :=
  (dispatchAll parallel fetchers gen).map (mkRouted prompt w task fetchers)

/-- The comparison used to embed routed.sort(key=lambda r: r.score,
reverse=True): Python sorting is stable, so the sorted list is the unique
permutation ordered by score descending with ties in original position
order.  Elements are paired with their original positions. -/
def routeRel (a b : Nat × RouterResponse) : Prop :=
  b.2.score < a.2.score ∨ (a.2.score = b.2.score ∧ a.1 ≤ b.1)

instance : DecidableRel routeRel := fun a b => by
  unfold routeRel; infer_instance

instance : IsTotal (Nat × RouterResponse) routeRel := by
  constructor
  intro a b
  rcases lt_trichotomy a.2.score b.2.score with h | h | h
  · exact Or.inr (Or.inl h)
  · rcases Nat.le_total a.1 b.1 with hn | hn
    · exact Or.inl (Or.inr ⟨h, hn⟩)
    · exact Or.inr (Or.inr ⟨h.symm, hn⟩)
  · exact Or.inl (Or.inl h)

instance : IsTrans (Nat × RouterResponse) routeRel := by
  constructor
  intro a b c hab hbc
  rcases hab with h1 | ⟨e1, n1⟩
  · rcases hbc with h2 | ⟨e2, n2⟩
    · exact Or.inl (h2.trans h1)
    · exact Or.inl (e2 ▸ h1)
  · rcases hbc with h2 | ⟨e2, n2⟩
    · exact Or.inl (e1 ▸ h2)
    · exact Or.inr ⟨e1.trans e2, n1.trans n2⟩

/-- The choose arguments route passes to the registry. -/
def chooseArgsOf (req : RouterRequest) : ChooseArgs :=
  { limit := req.limit_models, task := req.task, require_json := req.require_json,
    require_streaming := req.require_streaming, required_roles := req.required_roles }

/-- route, with the ranked list still carrying original positions: score each
response and stable-sort by score descending. -/
def routeRanked (registry : List Fetcher) (req : RouterRequest) (w : ScoreWeights)
    (gen : Fetcher → GenOutcome) : List (Nat × RouterResponse) :=
  List.insertionSort routeRel
    (routedList req.prompt w req.task req.parallel
      (choose registry (chooseArgsOf req)) gen).enum

/-- Router.route: the ranked responses. -/
def route (registry : List Fetcher) (req : RouterRequest) (w : ScoreWeights)
    (gen : Fetcher → GenOutcome) : List RouterResponse :=
  (routeRanked registry req w gen).map Prod.snd

/-- The two fetchers of the C5 witness registry: identical apart from their
names, so both models receive identical final scores. -/
def tf1 : Fetcher := { name := "a1", meta := { name := "a1", provider := "local" }, st := {} }

/-- Second twin fetcher. -/
def tf2 : Fetcher := { name := "a2", meta := { name := "a2", provider := "local" }, st := {} }

/-- Concrete two-model registry used by the C5 witness. -/
def twinRegistry : List Fetcher := [tf1, tf2]

/-- The concrete request of the C5 witness. -/
def twinReq : RouterRequest := { prompt := "hi" }

/-- The concrete generate outcomes of the C5 witness: every adapter answers
with empty content, zero latency and no error. -/
def twinGen : Fetcher → GenOutcome := fun _ => .ok "" 0 none

/-! ## OpenAI-compatible fetcher (RaeburnBrainAI/model_fetchers/openai_fetcher.py) -/

/-- Outcome of the HTTP round trip with retries, passed in as an oracle:
either a parsed content string (possibly empty when the body had no choices)
or the stringified terminal exception. -/
inductive HttpOutcome where
  | ok (content : String)
  | fail (err : String)
deriving DecidableEq

/-- The value-level fields of the response dict built by
BaseFetcher._response (the health bookkeeping mutated alongside is the
FetcherState modelled above). -/
structure FetchResult where
  content : String
  latency : ℚ
  error : Option String
deriving DecidableEq

/-- OpenAIFetcher.generate.  apiKey models extras.get("api_key") or
OPENAI_API_KEY; the Authorization header is attached only for a truthy key
and an untruthy key without allow_unauthenticated returns the
missing-credentials response at once: content prompt + " - openai", error
"missing_api_key".  Otherwise the HTTP outcome decides the fields, and an
empty content with an untruthy error falls back to prompt + " - openai". -/
def openaiGenerate (apiKey : Option String) (allowUnauth : Bool) (prompt : String)
    (lat : ℚ) (http : HttpOutcome) : FetchResult :=
  if !pyTruthyS apiKey && !allowUnauth then
    { content := prompt ++ " - openai", latency := lat, error := some "missing_api_key" }
  else
    match http with
    | .ok c =>
      { content := if c = "" then prompt ++ " - openai" else c, latency := lat, error := none }
    | .fail e =>
      { content := if e = "" then prompt ++ " - openai" else "", latency := lat, error := some e }

/-- _call_openrouter from src/core/router.py: with an untruthy api key it
returns the mock at once, content prompt + " - openrouter" and error
"missing_api_key"; otherwise the HTTP outcome decides the fields (this
function has no empty-content fallback). -/
def openrouterCall (apiKey : Option String) (prompt : String) (lat : ℚ)
    (http : HttpOutcome) : FetchResult :=
  if !pyTruthyS apiKey then
    { content := prompt ++ " - openrouter", latency := lat, error := some "missing_api_key" }
  else
    match http with
    | .ok c => { content := c, latency := lat, error := none }
    | .fail e => { content := "", latency := lat, error := some e }

/-! ## Core memory store (src/core/memory_store.py, SQLite path)

The claims below exercise the SQLite code path (MEMORY_DB_URL unset), so the
Postgres branches are not modelled.  A shard database is a list of rows in
rowid order together with the set of blob files on disk (identified by the
file names that both write_blob and cleanup_orphan_blobs use). -/

namespace Core

/-- MemoryItem dataclass.  metadata is kept as an association list; the
optional embedding column is carried along (the default configuration,
MEMORY_EMBEDDINGS_ENABLED unset, always stores none). -/
structure MemoryItem where
  id : String
  agent_id : String
  text : String
  tags : List String := []
  importance : ℚ := 1/2
  created_at : ℚ
  expires_at : Option ℚ := none
  source : Option String := none
  metadata : List (String × String) := []
  blob_ref : Option String := none
  deleted : Bool := false
  embedding : Option (List ℚ) := none
deriving DecidableEq

/-- One shard: its table rows in rowid order, plus the blob directory. -/
structure StoreState where
  entries : List MemoryItem := []
  blobs : List String := []
deriving DecidableEq

/-- The module-level configuration knobs the claims depend on:
MEMORY_TTL_DEFAULT (float(env) or None, so none or a nonzero value),
MEMORY_MAX_RESULTS, MEMORY_QUERY_STRICT. -/
structure MemConfig where
  ttlDefault : Option ℚ := none
  maxResults : Nat := 5
  queryStrict : Bool := false
deriving DecidableEq

/-- The configuration under default environment variables. -/
def defaultCfg : MemConfig := {}

/-- _purge_expired: DELETE FROM memory_entries WHERE expires_at IS NOT NULL
AND expires_at < now. -/
def purgeExpired (now : ℚ) (s : StoreState) : StoreState :=
  { s with entries := s.entries.filter fun e =>
      match e.expires_at with
      | none => true
      | some t => !decide (t < now) }

/-- Resolution of a Python int-or-None limit argument through
limit = limit or MEMORY_MAX_RESULTS (0 and None are both falsy). -/
def resolveLimit (cfg : MemConfig) (limit : Option Nat) : Nat :=
  match limit with
  | some n => if n ≠ 0 then n else cfg.maxResults
  | none => cfg.maxResults

/-- The expires_at computed by add:
time.time() + ttl if ttl else (MEMORY_TTL_DEFAULT + time.time() if
MEMORY_TTL_DEFAULT else None); a ttl of 0 is falsy and therefore produces no
expiry under the default configuration. -/
def addExpires (cfg : MemConfig) (now : ℚ) (ttl : Option ℚ) : Option ℚ :=
  if pyTruthyQ ttl then some (now + ttl.getD 0)
  else if pyTruthyQ cfg.ttlDefault then some (cfg.ttlDefault.getD 0 + now)
  else none

/-- MemoryStore.add on the SQLite path: write the blob side file first when
blob bytes are given (blobName stands for the generated uuid file name),
build the entry, purge expired rows, then INSERT.  Returns the new state and
the entry handed back to the caller. -/
def add (cfg : MemConfig) (now : ℚ) (entryId : String) (agent text : String)
    (tags : List String) (importance : ℚ) (ttl : Option ℚ) (source : Option String)
    (metadata : List (String × String)) (blob : Option (List Nat)) (blobName : String)
    (s : StoreState) : StoreState × MemoryItem :=
  let blobRef : Option String := blob.map fun _ => blobName
  let e : MemoryItem :=
    { id := entryId, agent_id := agent, text := text, tags := tags,
      importance := importance, created_at := now, expires_at := addExpires cfg now ttl,
      source := source, metadata := metadata, blob_ref := blobRef, deleted := false,
      embedding := none }
  let s1 := purgeExpired now { s with blobs := match blob with
    | some _ => s.blobs ++ [blobName]
    | none => s.blobs }
  ({ s1 with entries := s1.entries ++ [e] }, e)

/-- ORDER BY created_at DESC.  SQLite leaves the relative order of equal
keys unspecified; the embedding fixes it to the stable one. -/
def createdRel (a b : MemoryItem) : Prop := b.created_at ≤ a.created_at

instance : DecidableRel createdRel := fun a b => by unfold createdRel; infer_instance

instance : IsTotal MemoryItem createdRel :=
  ⟨fun a b => le_total b.created_at a.created_at⟩

instance : IsTrans MemoryItem createdRel :=
  ⟨fun _ _ _ h1 h2 => le_trans h2 h1⟩

/-- MemoryStore.get: purge, filter by agent (and deleted unless
include_deleted), order by created_at descending, apply the limit. -/
def get (cfg : MemConfig) (now : ℚ) (agent : String) (limit : Option Nat)
    (includeDeleted : Bool) (s : StoreState) : List MemoryItem :=
  let lim := resolveLimit cfg limit
  let s1 := purgeExpired now s
  (List.insertionSort createdRel
    (s1.entries.filter fun e => e.agent_id == agent && (includeDeleted || !e.deleted))).take lim

/-- ORDER BY bm25_score ASC, created_at DESC, where bmq scores a text
against the query (the bm25 value SQLite computes). -/
def searchRel (bmq : String → ℚ) (a b : MemoryItem) : Prop :=
  bmq a.text < bmq b.text ∨ (bmq a.text = bmq b.text ∧ b.created_at ≤ a.created_at)

instance (bmq : String → ℚ) : DecidableRel (searchRel bmq) := fun a b => by
  unfold searchRel; infer_instance

/-- MemoryStore.search on the SQLite path, with the external FTS5 engine
abstracted into a match oracle ftsMatch and a ranking oracle bmq.  The
filter chain: FTS match, agent, not deleted, and - only when the tags
argument is truthy AND strict-query mode is on - equality of the stored tags
column with json.dumps(list(tags)), i.e. equality of the tag lists.  When
strict mode is off the tags argument is ignored entirely.  (The
metadata_filter parameter is omitted: the line building its LIKE pattern in
the source is not even syntactically valid Python, and no claim passes it.) -/
def search (cfg : MemConfig) (now : ℚ) (ftsMatch : String → String → Bool)
    (bmq : String → ℚ) (agent query : String) (limit : Option Nat)
    (tags : Option (List String)) (s : StoreState) : List MemoryItem :=
  let lim := resolveLimit cfg limit
  let s1 := purgeExpired now s
  let rows := s1.entries.filter fun e =>
    ftsMatch query e.text && e.agent_id == agent && !e.deleted &&
      (if pyTruthyL tags && cfg.queryStrict then e.tags == tags.getD [] else true)
  (List.insertionSort (searchRel bmq) rows).take lim

/-- scored.sort(key=lambda x: x[0], reverse=True) on (score, entry) pairs. -/
def scoreRel (a b : ℚ × MemoryItem) : Prop := b.1 ≤ a.1

instance : DecidableRel scoreRel := fun a b => by unfold scoreRel; infer_instance

/-- MemoryStore.get_relevant: take 3x limit candidates from search (or from
get when the query is falsy), drop deleted entries, score each as
0.5 * bm25 + 0.3 * recency + 0.2 * importance with the bm25 term hard-coded
to 1.0 in the source, sort by score descending and keep the top limit.  No
de-duplication is performed. -/
def get_relevant (cfg : MemConfig) (now : ℚ) (ftsMatch : String → String → Bool)
    (bmq : String → ℚ) (agent query : String) (tags : Option (List String))
    (limit : Option Nat) (s : StoreState) : List MemoryItem :=
  let lim := resolveLimit cfg limit
  let candidates :=
    if query ≠ "" then search cfg now ftsMatch bmq agent query (some (lim * 3)) tags s
    else get cfg now agent (some (lim * 3)) false s
  let scored := candidates.filterMap fun e =>
    if e.deleted then none
    else some ((1 * (5/10) + (1 / (1 + (now - e.created_at) / 3600)) * (3/10)
      + e.importance * (2/10), e))
  ((List.insertionSort scoreRel scored).take lim).map Prod.snd

/-- MemoryStore.update on the SQLite path: purge, SELECT the row by id
(find? models fetchone on the primary key), return silently when absent;
otherwise overwrite text/tags/importance/expires_at/metadata (only fields
passed non-None change; a non-None ttl always becomes now + ttl). -/
def update (now : ℚ) (entryId : String) (text : Option String)
    (tags : Option (List String)) (ttl : Option ℚ) (metadata : Option (List (String × String)))
    (importance : Option ℚ) (s : StoreState) : StoreState :=
  let s1 := purgeExpired now s
  match s1.entries.find? (fun e => e.id == entryId) with
  | none => s1
  | some e0 =>
    let e1 := { e0 with
      text := text.getD e0.text,
      tags := tags.getD e0.tags,
      expires_at := (match ttl with | some t => some (now + t) | none => e0.expires_at),
      metadata := metadata.getD e0.metadata,
      importance := importance.getD e0.importance }
    { s1 with entries := s1.entries.map fun e =>
        if e.id == entryId then
          { e with
            text := e1.text,
            tags := e1.tags,
            importance := e1.importance,
            expires_at := e1.expires_at,
            metadata := e1.metadata }
        else e }

/-- MemoryStore.soft_delete: UPDATE memory_entries SET deleted = 1 WHERE id. -/
def soft_delete (entryId : String) (s : StoreState) : StoreState :=
  { s with entries := s.entries.map fun e =>
      if e.id == entryId then { e with deleted := true } else e }

/-- MemoryStore.delete on the SQLite path: DELETE FROM memory_entries WHERE
id = ? and nothing else - in particular the blob directory is untouched. -/
def delete (entryId : String) (s : StoreState) : StoreState :=
  { s with entries := s.entries.filter fun e => !(e.id == entryId) }

/-- MemoryStore.cleanup_orphan_blobs: collect the blob_ref file names of all
rows (deleted or expired rows included - no purge and no deleted filter runs
here) and unlink every blob file whose name is not referenced. -/
def cleanup_orphan_blobs (s : StoreState) : StoreState :=
  let refs := s.entries.filterMap fun e => e.blob_ref
  { s with blobs := s.blobs.filter fun b => refs.contains b }

end Core

/-! ## RaeburnBrainAI memory store (RaeburnBrainAI/memory/store.py)

Each agent gets its own shard database ({agent}_shard.db); reads never filter
by agent inside a shard, so a shard is just its entries table. -/

namespace Rae

/-- MemoryEntry dataclass (the store columns that _row_to_entry keeps). -/
structure MemoryEntry where
  text : String
  tags : List String := []
  importance : ℚ := 1/2
  created_at : ℚ
  expires_at : Option ℚ := none
deriving DecidableEq

/-- One agent shard: its entries table in rowid order. -/
abbrev Shard := List MemoryEntry

/-- _prune_expired: DELETE WHERE expires_at IS NOT NULL AND expires_at < now. -/
def pruneExpired (now : ℚ) (sh : Shard) : Shard :=
  sh.filter fun e =>
    match e.expires_at with
    | none => true
    | some t => !decide (t < now)

/-- The expires_at computed by write: time.time() + ttl if ttl else None
(a ttl of 0 is falsy, so it produces no expiry). -/
def writeExpires (now : ℚ) (ttl : Option ℚ) : Option ℚ :=
  if pyTruthyQ ttl then some (now + ttl.getD 0) else none

/-- MemoryStore.write: prune expired rows, then INSERT the new entry. -/
def write (now : ℚ) (text : String) (tags : List String) (importance : ℚ)
    (ttl : Option ℚ) (sh : Shard) : Shard :=
  pruneExpired now sh ++
    [{ text := text, tags := tags, importance := importance, created_at := now,
       expires_at := writeExpires now ttl }]

/-- ORDER BY created_at DESC, and also the key of the combined sort inside
get_relevant (Python list.sort is stable; with this non-strict comparison the
insertion sort is exactly the stable descending sort). -/
def createdRel (a b : MemoryEntry) : Prop := b.created_at ≤ a.created_at

instance : DecidableRel createdRel := fun a b => by unfold createdRel; infer_instance

instance : IsTotal MemoryEntry createdRel :=
  ⟨fun a b => le_total b.created_at a.created_at⟩

instance : IsTrans MemoryEntry createdRel :=
  ⟨fun _ _ _ h1 h2 => le_trans h2 h1⟩

/-- MemoryStore.get: prune, order by created_at descending, limit. -/
def get (now : ℚ) (limit : Nat) (sh : Shard) : List MemoryEntry :=
  (List.insertionSort createdRel (pruneExpired now sh)).take limit

/-- MemoryStore.search with the FTS5 MATCH oracle passed in: prune, keep
matching rows, order by created_at descending, limit. -/
def search (now : ℚ) (ftsMatch : String → String → Bool) (query : String)
    (limit : Nat) (sh : Shard) : List MemoryEntry :=
  (List.insertionSort createdRel
    ((pruneExpired now sh).filter fun e => ftsMatch query e.text)).take limit

/-- json.dumps of a list of strings, as stored in the tags column.  (String
escaping is not modelled; the tags used by the development contain no
characters that json.dumps would escape.) -/
def tagsDump (tags : List String) : String :=
  "[" ++ String.intercalate ", " (tags.map fun t => "\"" ++ t ++ "\"") ++ "]"

/-- ASCII lowering, because SQLite LIKE is case-insensitive on ASCII. -/
def asciiLower (s : String) : String := String.map Char.toLower s

/-- tags LIKE "%tag%" against the JSON dump of the tags column. -/
def likeMatch (tag : String) (tags : List String) : Bool :=
  decide (List.IsInfix (asciiLower tag).data (asciiLower (tagsDump tags)).data)

/-- MemoryStore.by_tag: prune, keep rows whose tags column LIKE-matches the
tag, order by created_at descending, limit. -/
def by_tag (now : ℚ) (tag : String) (limit : Nat) (sh : Shard) : List MemoryEntry :=
  (List.insertionSort createdRel
    ((pruneExpired now sh).filter fun e => likeMatch tag e.tags)).take limit

/-- The combined candidate list built by get_relevant: by_tag results for
each tag when the tags argument is truthy, then search results for a truthy
query (else a plain get). -/
def relevantCandidates (now : ℚ) (ftsMatch : String → String → Bool) (query : String)
    (limit : Nat) (tags : Option (List String)) (sh : Shard) : List MemoryEntry :=
  (if pyTruthyL tags then (tags.getD []).flatMap fun t => by_tag now t limit sh else []) ++
    (if query ≠ "" then search now ftsMatch query limit sh else get now limit sh)

/-- The de-duplication loop of get_relevant: walk the recency-sorted list,
skipping entries whose (text, tag-tuple) key was already seen. -/
def dedupByKey : List MemoryEntry → List (String × List String) → List MemoryEntry
  | [], _ => []
  | m :: rest, seen =>
    if (m.text, m.tags) ∈ seen then dedupByKey rest seen
    else m :: dedupByKey rest ((m.text, m.tags) :: seen)

/-- MemoryStore.get_relevant: gather candidates, stable-sort them by
created_at descending, de-duplicate by (text, tag-tuple) keeping the first
(hence most recent) occurrence, and truncate to the limit. -/
def get_relevant (now : ℚ) (ftsMatch : String → String → Bool) (query : String)
    (limit : Nat) (tags : Option (List String)) (sh : Shard) : List MemoryEntry :=
  (dedupByKey
    (List.insertionSort createdRel (relevantCandidates now ftsMatch query limit tags sh))
    []).take limit

/-- The de-duplication key. -/
def entryKey (e : MemoryEntry) : String × List String := (e.text, e.tags)

end Rae

/-- The concrete one-entry store used by the C10 witness. -/
def c10State : Core.StoreState :=
  { entries := [{ id := "a", agent_id := "u", text := "t", created_at := 0, importance := 1 }],
    blobs := [] }

/-- The single stored entry of the C7 counterexample: it carries tag "b"
only. -/
def c7Entry : Core.MemoryItem :=
  { id := "m1", agent_id := "u", text := "hello", tags := ["b"], created_at := 0,
    importance := 1 }

/-- The stored entry of the C8 counterexample, holding a blob reference. -/
def c8Entry : Core.MemoryItem :=
  { id := "e1", agent_id := "u", text := "t", created_at := 0, importance := 1,
    blob_ref := some "b1.bin" }

/-- The C8 counterexample store: the entry and its blob file. -/
def c8State : Core.StoreState := { entries := [c8Entry], blobs := ["b1.bin"] }

/-- First entry of the C9 counterexample: text "x", no tags. -/
def c9e1 : Core.MemoryItem :=
  { id := "1", agent_id := "u", text := "x", tags := [], created_at := 0, importance := 1 }

/-- Second entry of the C9 counterexample: same (text, tag-tuple) key, newer. -/
def c9e2 : Core.MemoryItem :=
  { id := "2", agent_id := "u", text := "x", tags := [], created_at := 1, importance := 1 }

/-- The C9 counterexample store. -/
def c9State : Core.StoreState := { entries := [c9e1, c9e2], blobs := [] }

/-! ## Theorems -/

/-! ### Bounds on the sub-scores -/

theorem lcsLenAux_le (fuel : Nat) :
    ∀ as bs : List Char, lcsLenAux fuel as bs ≤ as.length ∧ lcsLenAux fuel as bs ≤ bs.length := by
  induction fuel with
  | zero => intro as bs; simp [lcsLenAux]
  | succ n ih =>
    intro as bs
    match as, bs with
    | [], _ => simp [lcsLenAux]
    | _ :: _, [] => simp [lcsLenAux]
    | a :: as, b :: bs =>
      by_cases hab : a = b
      · have h := ih as bs
        simp only [lcsLenAux, if_pos hab, List.length_cons]
        omega
      · have h1 := ih (a :: as) bs
        have h2 := ih as (b :: bs)
        simp only [lcsLenAux, if_neg hab, List.length_cons] at *
        omega

theorem lcsLen_le (as bs : List Char) :
    lcsLen as bs ≤ as.length ∧ lcsLen as bs ≤ bs.length :=
  lcsLenAux_le _ as bs

theorem pySimilarity_mem (a b : String) :
    0 ≤ pySimilarity a b ∧ pySimilarity a b ≤ 1 := by
  unfold pySimilarity
  split
  · norm_num
  · rename_i h
    push_neg at h
    obtain ⟨ha, hb⟩ := h
    have hla : 1 ≤ a.length := by
      rcases Nat.eq_zero_or_pos a.length with h0 | h1
      · exact absurd (String.ext (List.length_eq_zero.mp h0)) ha
      · exact h1
    have hlb : 1 ≤ b.length := by
      rcases Nat.eq_zero_or_pos b.length with h0 | h1
      · exact absurd (String.ext (List.length_eq_zero.mp h0)) hb
      · exact h1
    have hlen : (0 : ℚ) < (a.length : ℚ) + (b.length : ℚ) := by
      have : (1 : ℚ) ≤ (a.length : ℚ) := by exact_mod_cast hla
      have : (1 : ℚ) ≤ (b.length : ℚ) := by exact_mod_cast hlb
      linarith
    have h1 := (lcsLen_le a.data b.data).1
    have h2 := (lcsLen_le a.data b.data).2
    have hda : a.data.length = a.length := rfl
    have hdb : b.data.length = b.length := rfl
    rw [hda] at h1
    rw [hdb] at h2
    have hq1 : (lcsLen a.data b.data : ℚ) ≤ (a.length : ℚ) := by exact_mod_cast h1
    have hq2 : (lcsLen a.data b.data : ℚ) ≤ (b.length : ℚ) := by exact_mod_cast h2
    have hlcs0 : (0 : ℚ) ≤ (lcsLen a.data b.data : ℚ) := by positivity
    unfold seqMatchRatio
    constructor
    · positivity
    · rw [div_le_one hlen]
      linarith

theorem lengthScore_mem (content : String) :
    0 ≤ lengthScore content ∧ lengthScore content ≤ 1 := by
  unfold lengthScore
  constructor
  · positivity
  · have h : (min content.length 4000 : ℕ) ≤ 4000 := Nat.min_le_right _ _
    have hq : ((min content.length 4000 : ℕ) : ℚ) ≤ 4000 := by exact_mod_cast h
    rw [div_le_one (by norm_num)]
    exact hq

theorem matchScore_mem (error : Option String) :
    0 ≤ matchScore error ∧ matchScore error ≤ 1 := by
  unfold matchScore; split <;> norm_num

theorem latencyScore_mem (latency : ℚ) :
    0 ≤ latencyScore latency ∧ latencyScore latency ≤ 1 := by
  unfold latencyScore
  have h1 : (1 : ℚ) ≤ max latency 1 := le_max_right _ _
  have h2 : (2 : ℚ) ≤ 1 + max latency 1 := by linarith
  constructor
  · positivity
  · rw [div_le_one (by linarith)]
    linarith

/-! ### Normalized weights -/

theorem normalized_total_eq_one (w : ScoreWeights)
    (hl : 0 ≤ w.length) (hm : 0 ≤ w.matchW) (hs : 0 ≤ w.similarity) (hla : 0 ≤ w.latency) :
    w.normalized.total = 1 := by
  unfold ScoreWeights.normalized
  split
  · simp [ScoreWeights.default, ScoreWeights.total]
    norm_num
  · rename_i h
    unfold ScoreWeights.total at *
    field_simp

theorem normalized_nonneg (w : ScoreWeights)
    (hl : 0 ≤ w.length) (hm : 0 ≤ w.matchW) (hs : 0 ≤ w.similarity) (hla : 0 ≤ w.latency) :
    0 ≤ w.normalized.length ∧ 0 ≤ w.normalized.matchW ∧
      0 ≤ w.normalized.similarity ∧ 0 ≤ w.normalized.latency := by
  unfold ScoreWeights.normalized
  split
  · simp [ScoreWeights.default]
    norm_num
  · rename_i h
    have htot : 0 < w.total := by
      unfold ScoreWeights.total at *
      rcases lt_or_eq_of_le (by linarith : (0:ℚ) ≤ w.length + w.matchW + w.similarity + w.latency) with hlt | heq
      · exact hlt
      · exact absurd heq.symm h
    refine ⟨?_, ?_, ?_, ?_⟩ <;> · simp only; positivity

theorem hybrid_score_nonneg (p : String) (r : ScoredInput) (w : ScoreWeights)
    (hl : 0 ≤ w.length) (hm : 0 ≤ w.matchW) (hs : 0 ≤ w.similarity) (hla : 0 ≤ w.latency) :
    0 ≤ hybrid_score p r w := by
  obtain ⟨hn1, hn2, hn3, hn4⟩ := normalized_nonneg w hl hm hs hla
  have s1 := lengthScore_mem r.content
  have s2 := matchScore_mem r.error
  have s3 := pySimilarity_mem p r.content
  have s4 := latencyScore_mem r.latency
  unfold hybrid_score
  have := mul_nonneg s1.1 hn1
  have := mul_nonneg s2.1 hn2
  have := mul_nonneg s3.1 hn3
  have := mul_nonneg s4.1 hn4
  simp only
  linarith

theorem hybrid_score_le_one (p : String) (r : ScoredInput) (w : ScoreWeights)
    (hl : 0 ≤ w.length) (hm : 0 ≤ w.matchW) (hs : 0 ≤ w.similarity) (hla : 0 ≤ w.latency) :
    hybrid_score p r w ≤ 1 := by
  obtain ⟨hn1, hn2, hn3, hn4⟩ := normalized_nonneg w hl hm hs hla
  have htot := normalized_total_eq_one w hl hm hs hla
  have s1 := lengthScore_mem r.content
  have s2 := matchScore_mem r.error
  have s3 := pySimilarity_mem p r.content
  have s4 := latencyScore_mem r.latency
  unfold hybrid_score
  have h1 : lengthScore r.content * w.normalized.length ≤ w.normalized.length :=
    mul_le_of_le_one_left hn1 s1.2
  have h2 : matchScore r.error * w.normalized.matchW ≤ w.normalized.matchW :=
    mul_le_of_le_one_left hn2 s2.2
  have h3 : pySimilarity p r.content * w.normalized.similarity ≤ w.normalized.similarity :=
    mul_le_of_le_one_left hn3 s3.2
  have h4 : latencyScore r.latency * w.normalized.latency ≤ w.normalized.latency :=
    mul_le_of_le_one_left hn4 s4.2
  unfold ScoreWeights.total at htot
  simp only
  linarith

/-- C2: for every prompt and every response record with non-negative
configured weights, hybrid_score lies in [0,1]; each sub-score lies in [0,1];
the normalized weights sum to 1; and when the configured weights sum to zero
the defaults are used. -/
theorem hybrid_score_bounds (p : String) (r : ScoredInput) (w : ScoreWeights)
    (hl : 0 ≤ w.length) (hm : 0 ≤ w.matchW) (hs : 0 ≤ w.similarity) (hla : 0 ≤ w.latency) :
    (0 ≤ hybrid_score p r w ∧ hybrid_score p r w ≤ 1) ∧
      (0 ≤ lengthScore r.content ∧ lengthScore r.content ≤ 1) ∧
      (0 ≤ matchScore r.error ∧ matchScore r.error ≤ 1) ∧
      (0 ≤ pySimilarity p r.content ∧ pySimilarity p r.content ≤ 1) ∧
      (0 ≤ latencyScore r.latency ∧ latencyScore r.latency ≤ 1) ∧
      w.normalized.total = 1 ∧
      (w.total = 0 → w.normalized = ScoreWeights.default) :=
  ⟨⟨hybrid_score_nonneg p r w hl hm hs hla, hybrid_score_le_one p r w hl hm hs hla⟩,
    lengthScore_mem r.content, matchScore_mem r.error, pySimilarity_mem p r.content,
    latencyScore_mem r.latency, normalized_total_eq_one w hl hm hs hla,
    fun h => by unfold ScoreWeights.normalized; rw [if_pos h]⟩

/-- C2 witness: the bounds at a concrete prompt, response and the default weights. -/
theorem hybrid_score_bounds_witness :
    ((0:ℚ) ≤ ScoreWeights.default.length ∧ (0:ℚ) ≤ ScoreWeights.default.matchW ∧
      (0:ℚ) ≤ ScoreWeights.default.similarity ∧ (0:ℚ) ≤ ScoreWeights.default.latency) ∧
      (0 ≤ hybrid_score "hi" ⟨"hi there", 12, none⟩ ScoreWeights.default ∧
        hybrid_score "hi" ⟨"hi there", 12, none⟩ ScoreWeights.default ≤ 1) :=
  ⟨⟨by with_unfolding_all decide, by with_unfolding_all decide,
      by with_unfolding_all decide, by with_unfolding_all decide⟩,
    (hybrid_score_bounds "hi" ⟨"hi there", 12, none⟩ ScoreWeights.default
      (by with_unfolding_all decide) (by with_unfolding_all decide)
      (by with_unfolding_all decide) (by with_unfolding_all decide)).1⟩

theorem taskFactor_pos (meta : ModelMeta) (task : Option String) : 0 < taskFactor meta task := by
  unfold taskFactor
  match task with
  | none => norm_num
  | some t =>
    dsimp only
    split
    · norm_num
    · split <;> split <;> split <;> split <;> norm_num

theorem failureFactor_pos (n : Nat) : 0 < failureFactor n := by
  unfold failureFactor
  split
  · exact lt_max_of_lt_left (by norm_num)
  · norm_num

theorem failureFactor_antitone {n m : Nat} (h : n ≤ m) : failureFactor m ≤ failureFactor n := by
  unfold failureFactor
  rcases Nat.eq_zero_or_pos n with hn | hn
  · subst hn
    simp only [ne_eq, not_true_eq_false, if_false]
    split
    · refine max_le (by norm_num) ?_
      have : (0 : ℚ) ≤ (m : ℚ) := by positivity
      linarith
    · simp
  · have hm : m ≠ 0 := by omega
    have hn2 : n ≠ 0 := by omega
    rw [if_pos hm, if_pos hn2]
    refine max_le_max le_rfl ?_
    have : (n : ℚ) ≤ (m : ℚ) := by exact_mod_cast h
    linarith

theorem bias_multiplier_factored (meta : ModelMeta) (hok : Bool) (n : Nat)
    (task : Option String) :
    bias_multiplier meta ⟨hok, n⟩ task =
      bias_multiplier meta ⟨hok, 0⟩ task * failureFactor n := by
  have h0 : failureFactor 0 = 1 := by unfold failureFactor; simp
  unfold bias_multiplier
  dsimp only
  rw [h0]
  ring

theorem bias_multiplier_nonneg (meta : ModelMeta) (st : FetcherState) (task : Option String)
    (hsp : 0 ≤ meta.speed_tps_estimate) : 0 ≤ bias_multiplier meta st task := by
  unfold bias_multiplier
  have h1 := taskFactor_pos meta task
  have h2 : (0:ℚ) < 1 + max meta.cost_usd_per_1k 0 := by
    have : (0:ℚ) ≤ max meta.cost_usd_per_1k 0 := le_max_right _ _
    linarith
  have h3 : (0:ℚ) ≤ (if meta.speed_tps_estimate ≠ 0 then
      1 + min meta.speed_tps_estimate 100 / 1000 else 1) := by
    split
    · have : (0:ℚ) ≤ min meta.speed_tps_estimate 100 := le_min hsp (by norm_num)
      linarith
    · norm_num
  have h4 := failureFactor_pos st.failure_count
  have h5 : (0:ℚ) ≤ (if st.health_ok then 1 else 8/10) := by split <;> norm_num
  have h6 : (0:ℚ) ≤ (if meta.last_passed_health = none then (9:ℚ)/10 else 1) := by
    split <;> norm_num
  positivity

/-- C4: with non-negative configured weights and a non-negative speed
estimate, the final biased score of an adapter is non-increasing in its
failure_count, everything else (prompt, response, descriptor metadata,
health flag, task) held fixed. -/
theorem finalScore_antitone_in_failures (p : String) (r : ScoredInput) (w : ScoreWeights)
    (meta : ModelMeta) (hok : Bool) (task : Option String) (n m : Nat)
    (hl : 0 ≤ w.length) (hm : 0 ≤ w.matchW) (hs : 0 ≤ w.similarity) (hla : 0 ≤ w.latency)
    (hsp : 0 ≤ meta.speed_tps_estimate) (hnm : n ≤ m) :
    finalScore p r w meta ⟨hok, m⟩ task ≤ finalScore p r w meta ⟨hok, n⟩ task := by
  unfold finalScore
  have hh := hybrid_score_nonneg p r w hl hm hs hla
  rw [bias_multiplier_factored meta hok m task, bias_multiplier_factored meta hok n task]
  have hbase := bias_multiplier_nonneg meta ⟨hok, 0⟩ task hsp
  have hmono := failureFactor_antitone hnm
  have hff := (failureFactor_pos m).le
  calc hybrid_score p r w * (bias_multiplier meta ⟨hok, 0⟩ task * failureFactor m)
      ≤ hybrid_score p r w * (bias_multiplier meta ⟨hok, 0⟩ task * failureFactor n) := by
        apply mul_le_mul_of_nonneg_left _ hh
        exact mul_le_mul_of_nonneg_left hmono hbase
    _ = hybrid_score p r w * bias_multiplier meta ⟨hok, 0⟩ task * failureFactor n := by ring
    _ = _ := by ring

/-- C4 witness: the monotonicity applied at a concrete adapter with failure
counts 1 and 3. -/
theorem finalScore_antitone_in_failures_witness :
    ((0:ℚ) ≤ ScoreWeights.default.length ∧ (0:ℚ) ≤ ScoreWeights.default.matchW ∧
      (0:ℚ) ≤ ScoreWeights.default.similarity ∧ (0:ℚ) ≤ ScoreWeights.default.latency ∧
      (0:ℚ) ≤ sampleMeta.speed_tps_estimate ∧ 1 ≤ 3) ∧
      finalScore "ping" ⟨"pong", 5, none⟩ ScoreWeights.default
          sampleMeta ⟨true, 3⟩ none ≤
        finalScore "ping" ⟨"pong", 5, none⟩ ScoreWeights.default
          sampleMeta ⟨true, 1⟩ none :=
  ⟨⟨by with_unfolding_all decide, by with_unfolding_all decide, by with_unfolding_all decide,
      by with_unfolding_all decide, by with_unfolding_all decide, by decide⟩,
    finalScore_antitone_in_failures "ping" ⟨"pong", 5, none⟩ ScoreWeights.default
      sampleMeta true none 1 3
      (by with_unfolding_all decide) (by with_unfolding_all decide)
      (by with_unfolding_all decide) (by with_unfolding_all decide)
      (by with_unfolding_all decide) (by decide)⟩

theorem choose_ne_nil (registry : List Fetcher) (a : ChooseArgs) :
    choose registry a ≠ [] := by
  unfold choose
  dsimp only
  split
  · simp
  · rename_i h
    simpa [List.isEmpty_iff] using h

theorem route_length (registry : List Fetcher) (req : RouterRequest) (w : ScoreWeights)
    (gen : Fetcher → GenOutcome) :
    (route registry req w gen).length = (choose registry (chooseArgsOf req)).length := by
  unfold route routeRanked chooseArgsOf
  rw [List.length_map, List.length_insertionSort, List.enum_length]
  unfold routedList dispatchAll
  cases req.parallel <;> simp

/-- C1: route always returns at least one scored response: choose never
returns an empty fetcher list (falling back to local-echo when every
descriptor is filtered out), route produces exactly one response per chosen
fetcher, and an adapter exception is converted into a synthesized error
response (content "", latency 0, the stringified exception as error) instead
of being raised. -/
theorem route_never_empty (registry : List Fetcher) (req : RouterRequest) (w : ScoreWeights)
    (gen : Fetcher → GenOutcome) :
    choose registry (chooseArgsOf req) ≠ [] ∧
      (route registry req w gen).length = (choose registry (chooseArgsOf req)).length ∧
      1 ≤ (route registry req w gen).length ∧
      (chooseLoop (chooseArgsOf req) registry 0 = [] →
        choose registry (chooseArgsOf req) = [localEchoFetcher]) ∧
      (∀ f msg, gen f = .exn msg →
        dispatchOne f (gen f) =
          { model := f.name, content := "", latency := 0, error := some msg, meta := some f.meta }) := by
  refine ⟨choose_ne_nil registry _, route_length registry req w gen, ?_, ?_, ?_⟩
  · rw [route_length registry req w gen]
    have h := choose_ne_nil registry (chooseArgsOf req)
    exact List.length_pos.mpr h
  · intro h
    unfold choose
    rw [h]
    simp
  · intro f msg h
    rw [h]
    rfl

/-- C5: ranking is stable on ties.  In the ranked output (responses paired
with their dispatch positions, which follow registry insertion order), if a
response appears before another with the same final score, then its dispatch
position is strictly smaller; this covers both the parallel and the
sequential dispatch modes, since req.parallel is arbitrary. -/
theorem route_tie_stable (registry : List Fetcher) (req : RouterRequest) (w : ScoreWeights)
    (gen : Fetcher → GenOutcome) (i j : Nat)
    (hi : i < (routeRanked registry req w gen).length)
    (hj : j < (routeRanked registry req w gen).length)
    (hij : i < j)
    (heq : ((routeRanked registry req w gen).get ⟨i, hi⟩).2.score =
      ((routeRanked registry req w gen).get ⟨j, hj⟩).2.score) :
    ((routeRanked registry req w gen).get ⟨i, hi⟩).1 <
      ((routeRanked registry req w gen).get ⟨j, hj⟩).1 := by
  have hsorted : (routeRanked registry req w gen).Sorted routeRel := by
    unfold routeRanked
    exact List.sorted_insertionSort routeRel _
  have hrel : routeRel ((routeRanked registry req w gen).get ⟨i, hi⟩)
      ((routeRanked registry req w gen).get ⟨j, hj⟩) :=
    List.pairwise_iff_get.mp hsorted ⟨i, hi⟩ ⟨j, hj⟩ hij
  have hnodup : ((routeRanked registry req w gen).map Prod.fst).Nodup := by
    have hperm : List.Perm (routeRanked registry req w gen)
        ((routedList req.prompt w req.task req.parallel
          (choose registry (chooseArgsOf req)) gen).enum) := by
      unfold routeRanked chooseArgsOf
      exact List.perm_insertionSort routeRel _
    have hperm2 := hperm.map Prod.fst
    rw [List.enum_map_fst] at hperm2
    exact hperm2.nodup_iff.mpr (List.nodup_range _)
  have hfst_ne : ((routeRanked registry req w gen).get ⟨i, hi⟩).1 ≠
      ((routeRanked registry req w gen).get ⟨j, hj⟩).1 := by
    have hpw := List.pairwise_map.mp hnodup
    exact List.pairwise_iff_get.mp hpw ⟨i, hi⟩ ⟨j, hj⟩ hij
  rcases hrel with hlt | ⟨_, hle⟩
  · rw [heq] at hlt
    exact absurd hlt (lt_irrefl _)
  · exact lt_of_le_of_ne hle hfst_ne

theorem twin_choose : choose twinRegistry (chooseArgsOf twinReq) = twinRegistry := by decide

theorem twin_len :
    (routeRanked twinRegistry twinReq ScoreWeights.default twinGen).length = 2 := by
  unfold routeRanked
  rw [List.length_insertionSort, List.enum_length, twin_choose]
  rfl

theorem twin_score_eq :
    (mkRouted "hi" ScoreWeights.default none twinRegistry (dispatchOne tf1 (twinGen tf1))).score =
      (mkRouted "hi" ScoreWeights.default none twinRegistry (dispatchOne tf2 (twinGen tf2))).score := by
  rfl

theorem twin_scores_const (p : Nat × RouterResponse)
    (hp : p ∈ routeRanked twinRegistry twinReq ScoreWeights.default twinGen) :
    p.2.score =
      (mkRouted "hi" ScoreWeights.default none twinRegistry (dispatchOne tf1 (twinGen tf1))).score := by
  unfold routeRanked at hp
  rw [List.mem_insertionSort, twin_choose] at hp
  have hroutes : routedList twinReq.prompt ScoreWeights.default twinReq.task twinReq.parallel
      twinRegistry twinGen =
      [mkRouted "hi" ScoreWeights.default none twinRegistry (dispatchOne tf1 (twinGen tf1)),
       mkRouted "hi" ScoreWeights.default none twinRegistry (dispatchOne tf2 (twinGen tf2))] := rfl
  rw [hroutes] at hp
  simp only [List.enum, List.enumFrom, List.mem_cons, List.not_mem_nil, or_false] at hp
  rcases hp with hp | hp
  · rw [hp]
  · rw [hp]
    exact twin_score_eq.symm

theorem twin_h0 : 0 < (routeRanked twinRegistry twinReq ScoreWeights.default twinGen).length := by
  rw [twin_len]; decide

theorem twin_h1 : 1 < (routeRanked twinRegistry twinReq ScoreWeights.default twinGen).length := by
  rw [twin_len]; decide

theorem twin_heq :
    ((routeRanked twinRegistry twinReq ScoreWeights.default twinGen).get ⟨0, twin_h0⟩).2.score =
      ((routeRanked twinRegistry twinReq ScoreWeights.default twinGen).get ⟨1, twin_h1⟩).2.score := by
  rw [twin_scores_const _ (List.get_mem _ _ _), twin_scores_const _ (List.get_mem _ _ _)]

/-- C5 witness: on a registry of two identical echo models with identical
outcomes the two scores tie, and the ranked list keeps dispatch position 0
before dispatch position 1. -/
theorem route_tie_stable_witness :
    (0 : Nat) < 1 ∧
      ((routeRanked twinRegistry twinReq ScoreWeights.default twinGen).get ⟨0, twin_h0⟩).1 <
        ((routeRanked twinRegistry twinReq ScoreWeights.default twinGen).get ⟨1, twin_h1⟩).1 :=
  ⟨by decide,
    route_tie_stable twinRegistry twinReq ScoreWeights.default twinGen 0 1
      twin_h0 twin_h1 (by decide) twin_heq⟩

/-- C6 counterexample: with no api key and allow_unauthenticated unset, the
error field of the returned response is the literal "missing_api_key", not
"missing_credentials" as the claim states. -/
theorem missing_credentials_counterexample :
    openaiGenerate none false "hello" 1 (.ok "unused") =
        { content := "hello - openai", latency := 1, error := some "missing_api_key" } ∧
      ¬ (openaiGenerate none false "hello" 1 (.ok "unused")).error = some "missing_credentials" := by
  constructor
  · rfl
  · decide

/-- C6 amended: for every prompt, when the api key is absent or empty and
allow_unauthenticated is not set, the fetcher returns in-band with error
"missing_api_key" (not "missing_credentials") and content equal to the
prompt followed by " - <provider>"; the core router openrouter caller
behaves the same way. -/
theorem missing_credentials_amended (apiKey : Option String) (allowUnauth : Bool)
    (prompt : String) (lat : ℚ) (http : HttpOutcome)
    (hk : pyTruthyS apiKey = false) (ha : allowUnauth = false) :
    ((openaiGenerate apiKey allowUnauth prompt lat http).error = some "missing_api_key" ∧
      (openaiGenerate apiKey allowUnauth prompt lat http).content = prompt ++ " - openai") ∧
      ((openrouterCall apiKey prompt lat http).error = some "missing_api_key" ∧
        (openrouterCall apiKey prompt lat http).content = prompt ++ " - openrouter") := by
  unfold openaiGenerate openrouterCall
  rw [hk, ha]
  exact ⟨⟨rfl, rfl⟩, ⟨rfl, rfl⟩⟩

/-- C6 witness: the amended statement at a concrete missing-key call. -/
theorem missing_credentials_amended_witness :
    (pyTruthyS (none : Option String) = false ∧ false = false) ∧
      (((openaiGenerate none false "hi" 2 (.fail "boom")).error = some "missing_api_key" ∧
        (openaiGenerate none false "hi" 2 (.fail "boom")).content = "hi" ++ " - openai") ∧
        ((openrouterCall none "hi" 2 (.fail "boom")).error = some "missing_api_key" ∧
          (openrouterCall none "hi" 2 (.fail "boom")).content = "hi" ++ " - openrouter")) :=
  ⟨⟨by decide, rfl⟩,
    missing_credentials_amended none false "hi" 2 (.fail "boom") (by decide) rfl⟩

theorem Rae.dedupByKey_mem {l : List Rae.MemoryEntry} {seen : List (String × List String)}
    {x : Rae.MemoryEntry} (hx : x ∈ Rae.dedupByKey l seen) : x ∈ l ∧ Rae.entryKey x ∉ seen := by
  induction l generalizing seen with
  | nil => simp [Rae.dedupByKey] at hx
  | cons m rest ih =>
    unfold Rae.dedupByKey at hx
    split at hx
    · have := ih hx
      exact ⟨List.mem_cons_of_mem _ this.1, this.2⟩
    · rename_i hseen
      rcases List.mem_cons.mp hx with rfl | hx2
      · exact ⟨List.mem_cons_self _ _, by simpa [Rae.entryKey] using hseen⟩
      · have := ih hx2
        refine ⟨List.mem_cons_of_mem _ this.1, ?_⟩
        have h2 := this.2
        intro hc
        exact h2 (List.mem_cons_of_mem _ hc)

theorem Rae.dedupByKey_nodup (l : List Rae.MemoryEntry) :
    ∀ seen : List (String × List String), ((Rae.dedupByKey l seen).map Rae.entryKey).Nodup := by
  induction l with
  | nil => intro seen; simp [Rae.dedupByKey]
  | cons m rest ih =>
    intro seen
    unfold Rae.dedupByKey
    split
    · exact ih seen
    · rename_i hseen
      simp only [List.map_cons, List.nodup_cons]
      constructor
      · intro hc
        rcases List.mem_map.mp hc with ⟨y, hy, hkeyeq⟩
        have h2 := (Rae.dedupByKey_mem hy).2
        apply h2
        rw [show Rae.entryKey y = (m.text, m.tags) from hkeyeq]
        exact List.mem_cons_self _ _
      · exact ih _

theorem Rae.dedupByKey_most_recent {l : List Rae.MemoryEntry} {seen : List (String × List String)}
    {x y : Rae.MemoryEntry} (hsort : l.Sorted Rae.createdRel) (hx : x ∈ Rae.dedupByKey l seen)
    (hy : y ∈ l) (hkey : Rae.entryKey x = Rae.entryKey y) : y.created_at ≤ x.created_at := by
  induction l generalizing seen with
  | nil => simp at hy
  | cons m rest ih =>
    have htail : rest.Sorted Rae.createdRel := hsort.of_cons
    unfold Rae.dedupByKey at hx
    split at hx
    · rename_i hseen
      rcases List.mem_cons.mp hy with rfl | hy2
      · have h2 := (Rae.dedupByKey_mem hx).2
        have hmem : Rae.entryKey x ∈ seen := by
          rw [show Rae.entryKey x = (y.text, y.tags) from hkey]
          exact hseen
        exact absurd hmem h2
      · exact ih htail hx hy2
    · rcases List.mem_cons.mp hx with rfl | hx2
      · rcases List.mem_cons.mp hy with rfl | hy2
        · exact le_refl _
        · exact (List.rel_of_sorted_cons hsort) y hy2
      · rcases List.mem_cons.mp hy with rfl | hy2
        · have h2 := (Rae.dedupByKey_mem hx2).2
          have hmem : Rae.entryKey x ∈ (y.text, y.tags) :: seen := by
            rw [show Rae.entryKey x = (y.text, y.tags) from hkey]
            exact List.mem_cons_self _ _
          exact absurd hmem h2
        · exact ih htail hx2 hy2

/-! ## Claims on the memory stores -/

theorem addExpires_ttl_zero (now : ℚ) :
    Core.addExpires Core.defaultCfg now (some 0) = none := by
  simp [Core.addExpires, Core.defaultCfg, pyTruthyQ]

theorem writeExpires_ttl_zero (now : ℚ) :
    Rae.writeExpires now (some 0) = none := by
  simp [Rae.writeExpires, pyTruthyQ]

/-- C3 counterexample: add with ttl = 0 stores an entry with no expiry, and a
get one hundred time units later still returns it - the claim says the entry
must be absent. -/
theorem ttl_zero_get_includes_counterexample :
    (Core.add Core.defaultCfg 100 "e1" "u1" "hello" [] 1 (some 0) none [] none "b1" {}).2 ∈
      Core.get Core.defaultCfg 200 "u1" none false
        (Core.add Core.defaultCfg 100 "e1" "u1" "hello" [] 1 (some 0) none [] none "b1" {}).1 := by
  decide

/-- C3 amended: a ttl of 0 is falsy in both stores, so add/write with ttl = 0
sets no expiry at all: the entry is created with expires_at = None, survives
every later purge, and a subsequent get does include it (entries added with
ttl = 0 never expire; expiry applies only to entries with a truthy ttl). -/
theorem ttl_zero_entry_persists (agent text eid blobName : String) (tags : List String)
    (imp now later : ℚ) (sh : Rae.Shard) :
    Core.addExpires Core.defaultCfg now (some 0) = none ∧
      (Core.add Core.defaultCfg now eid agent text tags imp (some 0) none [] none blobName
        {}).2.expires_at = none ∧
      (Core.add Core.defaultCfg now eid agent text tags imp (some 0) none [] none blobName
          {}).2 ∈
        Core.get Core.defaultCfg later agent none false
          (Core.add Core.defaultCfg now eid agent text tags imp (some 0) none [] none blobName
            {}).1 ∧
      Rae.writeExpires now (some 0) = none ∧
      (⟨text, tags, imp, now, none⟩ : Rae.MemoryEntry) ∈
        Rae.write now text tags imp (some 0) sh := by
  refine ⟨addExpires_ttl_zero now, ?_, ?_, writeExpires_ttl_zero now, ?_⟩
  · simp [Core.add, addExpires_ttl_zero]
  · have he : Core.addExpires { ttlDefault := none, maxResults := 5, queryStrict := false }
        now (some 0) = none := addExpires_ttl_zero now
    simp [Core.add, Core.get, Core.purgeExpired, Core.resolveLimit, Core.defaultCfg, he,
      List.insertionSort, List.orderedInsert]
  · rw [Rae.write, writeExpires_ttl_zero]
    exact List.mem_append_right _ (List.mem_singleton.mpr rfl)

/-- C3 witness: the amended statement at concrete inputs. -/
theorem ttl_zero_entry_persists_witness :
    Core.addExpires Core.defaultCfg 7 (some 0) = none ∧
      (Core.add Core.defaultCfg 7 "id9" "ag" "txt" ["t"] 1 (some 0) none [] none "bn"
        {}).2.expires_at = none ∧
      (Core.add Core.defaultCfg 7 "id9" "ag" "txt" ["t"] 1 (some 0) none [] none "bn"
          {}).2 ∈
        Core.get Core.defaultCfg 9 "ag" none false
          (Core.add Core.defaultCfg 7 "id9" "ag" "txt" ["t"] 1 (some 0) none [] none "bn"
            {}).1 ∧
      Rae.writeExpires 7 (some 0) = none ∧
      (⟨"txt", ["t"], 1, 7, none⟩ : Rae.MemoryEntry) ∈
        Rae.write 7 "txt" ["t"] 1 (some 0) [] :=
  ttl_zero_entry_persists "ag" "txt" "id9" "bn" ["t"] 1 7 9 []

/-- C10: update with an entry id matching no stored entry is a silent no-op:
it returns normally and the resulting state is exactly the state after the
expired-entry purge that update performs first. -/
theorem update_missing_id_noop (now : ℚ) (entryId : String) (text : Option String)
    (tags : Option (List String)) (ttl : Option ℚ) (metadata : Option (List (String × String)))
    (importance : Option ℚ) (s : Core.StoreState)
    (h : ∀ e ∈ s.entries, e.id ≠ entryId) :
    Core.update now entryId text tags ttl metadata importance s = Core.purgeExpired now s := by
  unfold Core.update
  have hnone : (Core.purgeExpired now s).entries.find? (fun e => e.id == entryId) = none := by
    apply List.find?_eq_none.mpr
    intro e he
    have he2 : e ∈ s.entries := List.mem_of_mem_filter he
    simpa using h e he2
  dsimp only
  rw [hnone]

/-- C10 witness: a concrete update against an id that is not stored. -/
theorem update_missing_id_noop_witness :
    (∀ e ∈ c10State.entries, e.id ≠ "zzz") ∧
      Core.update 5 "zzz" none none none none none c10State =
        Core.purgeExpired 5 c10State :=
  ⟨by decide, update_missing_id_noop 5 "zzz" none none none none none c10State (by decide)⟩

/-- C7 counterexample: with strict-query mode off (the default), search with
tags = ["a"] still returns the entry tagged ["b"], which shares no tag with
the request - the claim says only entries with at least one overlapping tag
are returned.  (The FTS oracle here matches a query exactly equal to the
stored text, as FTS5 does for a single-token query against that text.) -/
theorem search_tags_counterexample :
    Core.search Core.defaultCfg 10 (fun q t => q == t) (fun _ => 0) "u" "hello" none
        (some ["a"]) { entries := [c7Entry], blobs := [] } = [c7Entry] ∧
      c7Entry.tags = ["b"] := by
  constructor
  · decide
  · rfl

/-- C7 amended: when strict-query mode is on and the tags argument is truthy,
search returns only entries whose stored tag list is exactly the given tag
list (json.dumps equality, hence order-sensitive list equality, not set
equality); when strict-query mode is off the tags argument is ignored
entirely, so entries sharing no tag with the request can be returned. -/
theorem search_tags_amended (cfg : Core.MemConfig) (now : ℚ)
    (fm : String → String → Bool) (bmq : String → ℚ) (agent query : String)
    (limit : Option Nat) (tags : Option (List String)) (s : Core.StoreState) :
    (cfg.queryStrict = true → pyTruthyL tags = true →
      ∀ e ∈ Core.search cfg now fm bmq agent query limit tags s, e.tags = tags.getD []) ∧
      (cfg.queryStrict = false →
        Core.search cfg now fm bmq agent query limit tags s =
          Core.search cfg now fm bmq agent query limit none s) := by
  constructor
  · intro hstrict httruthy e he
    unfold Core.search at he
    have he2 := List.mem_of_mem_take he
    rw [List.mem_insertionSort] at he2
    have hcond := List.of_mem_filter he2
    rw [httruthy, hstrict] at hcond
    simp only [Bool.true_and, if_true, Bool.and_eq_true, beq_iff_eq] at hcond
    exact hcond.2
  · intro hoff
    unfold Core.search
    rw [hoff]
    simp [pyTruthyL]

/-- C7 witness: the amended statement at a strict-mode configuration and a
concrete store. -/
theorem search_tags_amended_witness :
    ((Core.MemConfig.mk none 5 true).queryStrict = true → pyTruthyL (some ["b"]) = true →
      ∀ e ∈ Core.search (Core.MemConfig.mk none 5 true) 10 (fun q t => q == t) (fun _ => 0)
          "u" "hello" none (some ["b"]) { entries := [c7Entry], blobs := [] },
        e.tags = (some ["b"]).getD []) ∧
      ((Core.MemConfig.mk none 5 true).queryStrict = false →
        Core.search (Core.MemConfig.mk none 5 true) 10 (fun q t => q == t) (fun _ => 0)
            "u" "hello" none (some ["b"]) { entries := [c7Entry], blobs := [] } =
          Core.search (Core.MemConfig.mk none 5 true) 10 (fun q t => q == t) (fun _ => 0)
            "u" "hello" none none { entries := [c7Entry], blobs := [] }) :=
  search_tags_amended (Core.MemConfig.mk none 5 true) 10 (fun q t => q == t) (fun _ => 0)
    "u" "hello" none (some ["b"]) { entries := [c7Entry], blobs := [] }

/-- C8 counterexample: delete hard-removes the entry but leaves the
referenced blob file in place - the claim says the blob is removed as part of
the same delete operation. -/
theorem delete_blob_counterexample :
    (Core.delete "e1" c8State).entries = [] ∧
      (Core.delete "e1" c8State).blobs = ["b1.bin"] := by
  constructor
  · decide
  · rfl

/-- C8 amended: delete(id) hard-removes only the table row and never touches
the blob directory; a blob whose entry was deleted becomes an orphan that
stays on disk until cleanup_orphan_blobs runs, which removes exactly the
blobs referenced by no remaining entry. -/
theorem delete_leaves_blob_until_cleanup (entryId : String) (b : String) (s : Core.StoreState)
    (href : ∃ e ∈ s.entries, e.id = entryId ∧ e.blob_ref = some b)
    (hother : ∀ e ∈ (Core.delete entryId s).entries, e.blob_ref ≠ some b) :
    (Core.delete entryId s).blobs = s.blobs ∧
      b ∉ (Core.cleanup_orphan_blobs (Core.delete entryId s)).blobs := by
  constructor
  · rfl
  · unfold Core.cleanup_orphan_blobs
    dsimp only
    intro hmem
    have hcond := List.of_mem_filter hmem
    have hb : b ∈ (Core.delete entryId s).entries.filterMap fun e => e.blob_ref := by
      simpa using hcond
    rcases List.mem_filterMap.mp hb with ⟨e, he, hbe⟩
    exact hother e he hbe

/-- C8 witness: the amended statement at the concrete one-entry store. -/
theorem delete_leaves_blob_until_cleanup_witness :
    (∃ e ∈ c8State.entries, e.id = "e1" ∧ e.blob_ref = some "b1.bin") ∧
      ((Core.delete "e1" c8State).blobs = c8State.blobs ∧
        "b1.bin" ∉ (Core.cleanup_orphan_blobs (Core.delete "e1" c8State)).blobs) :=
  ⟨⟨c8Entry, by decide, by decide, by decide⟩,
    delete_leaves_blob_until_cleanup "e1" "b1.bin" c8State
      ⟨c8Entry, by decide, by decide, by decide⟩ (by decide)⟩

/-- C9 counterexample: the core store get_relevant performs no
de-duplication - with two stored entries sharing the (text, tag-tuple) key
it returns both, so the returned keys are not pairwise distinct. -/
theorem get_relevant_dup_counterexample :
    ¬ ((Core.get_relevant Core.defaultCfg 2 (fun _ _ => true) (fun _ => 0) "u" "" none none
        c9State).map fun e => (e.text, e.tags)).Nodup := by
  set_option maxRecDepth 4000 in with_unfolding_all decide

/-- C9 amended: the RaeburnBrainAI store get_relevant does de-duplicate: no
two returned entries share a (text, tag-tuple) key, and each returned entry
is at least as recent as every candidate carrying the same key; the core
store get_relevant (src/core/memory_store.py) performs no de-duplication. -/
theorem rae_get_relevant_dedup (now : ℚ) (fm : String → String → Bool) (query : String)
    (limit : Nat) (tags : Option (List String)) (sh : Rae.Shard) :
    ((Rae.get_relevant now fm query limit tags sh).map Rae.entryKey).Nodup ∧
      ∀ x ∈ Rae.get_relevant now fm query limit tags sh,
        ∀ y ∈ Rae.relevantCandidates now fm query limit tags sh,
          Rae.entryKey x = Rae.entryKey y → y.created_at ≤ x.created_at := by
  constructor
  · unfold Rae.get_relevant
    have hsub := List.take_sublist limit
      (Rae.dedupByKey
        (List.insertionSort Rae.createdRel (Rae.relevantCandidates now fm query limit tags sh))
        [])
    exact (Rae.dedupByKey_nodup _ []).sublist (hsub.map Rae.entryKey)
  · intro x hx y hy hkey
    unfold Rae.get_relevant at hx
    have hx2 := List.mem_of_mem_take hx
    have hy2 : y ∈ List.insertionSort Rae.createdRel
        (Rae.relevantCandidates now fm query limit tags sh) :=
      (List.mem_insertionSort _).mpr hy
    exact Rae.dedupByKey_most_recent
      (List.sorted_insertionSort Rae.createdRel _) hx2 hy2 hkey

/-- C9 witness: the amended statement at concrete inputs. -/
theorem rae_get_relevant_dedup_witness :
    ((Rae.get_relevant 0 (fun _ _ => true) "q" 5 none
        [⟨"x", [], 1, 0, none⟩, ⟨"x", [], 1, 1, none⟩]).map Rae.entryKey).Nodup ∧
      ∀ x ∈ Rae.get_relevant 0 (fun _ _ => true) "q" 5 none
          [⟨"x", [], 1, 0, none⟩, ⟨"x", [], 1, 1, none⟩],
        ∀ y ∈ Rae.relevantCandidates 0 (fun _ _ => true) "q" 5 none
            [⟨"x", [], 1, 0, none⟩, ⟨"x", [], 1, 1, none⟩],
          Rae.entryKey x = Rae.entryKey y → y.created_at ≤ x.created_at :=
  rae_get_relevant_dedup 0 (fun _ _ => true) "q" 5 none
    [⟨"x", [], 1, 0, none⟩, ⟨"x", [], 1, 1, none⟩]

end Raeburn

